import Mathlib

/-!
Verification of the `Background` component of maps4fs (maps4fs/generator/background.py).

The development shallowly embeds the raster and mesh operations of the component:
rasters are grids of natural-number samples (`Raster`), the triangulation of
`plane_from_np` is a list of index triples, morphology (`cv2.erode`/`cv2.dilate`
with a 3×3 full kernel and the default border handling) is explicit, and the
uint16 arithmetic of `subtraction` is modelled with an explicit `% 65536`.
-/

namespace Maps4fs

/-- A single-channel raster: `rows × cols` grid of unsigned integer samples.
Out-of-range indices are unused by every operation below. -/
structure Raster where
  rows : Nat
  cols : Nat
  data : Nat → Nat → Nat

/-- All samples of the raster in row-major order (the order of `np.ravel`). -/
def Raster.pixels (r : Raster) : List Nat :=
  (List.range r.rows).flatMap fun i => (List.range r.cols).map fun j => r.data i j

/-- The maximum sample value, as computed by `dem_data.max()` (0 for an empty raster). -/
def Raster.maxVal (r : Raster) : Nat := r.pixels.foldl max 0

/-- The minimum sample value (`maxVal` for an empty raster, the true minimum otherwise). -/
def Raster.minVal (r : Raster) : Nat := r.pixels.foldl min r.maxVal

/-- The height inversion of `plane_from_np`: `dem_data = dem_data.max() - dem_data`. -/
def Raster.invert (r : Raster) : Raster :=
  ⟨r.rows, r.cols, fun i j => r.maxVal - r.data i j⟩

/-- The `ground` value of `plane_from_np`: the maximum of the inverted raster
(`ground = z.max()`), i.e. the excluded sentinel height. -/
def Raster.ground (r : Raster) : Nat := r.invert.maxVal

theorem init_le_foldl_max (l : List Nat) (init : Nat) : init ≤ l.foldl max init := by
  induction l generalizing init with
  | nil => exact le_refl init
  | cons a l ih => exact le_trans (le_max_left init a) (ih (max init a))

theorem le_foldl_max_of_mem {l : List Nat} {a : Nat} (h : a ∈ l) (init : Nat) :
    a ≤ l.foldl max init := by
  induction l generalizing init with
  | nil => cases h
  | cons b l ih =>
    rcases List.mem_cons.mp h with rfl | h2
    · exact le_trans (le_max_right init a) (init_le_foldl_max l _)
    · exact ih h2 _

theorem foldl_min_le_init (l : List Nat) (init : Nat) : l.foldl min init ≤ init := by
  induction l generalizing init with
  | nil => exact le_refl init
  | cons a l ih => exact le_trans (ih (min init a)) (min_le_left init a)

theorem foldl_min_le_of_mem {l : List Nat} {a : Nat} (h : a ∈ l) (init : Nat) :
    l.foldl min init ≤ a := by
  induction l generalizing init with
  | nil => cases h
  | cons b l ih =>
    rcases List.mem_cons.mp h with rfl | h2
    · exact le_trans (foldl_min_le_init l _) (min_le_right init a)
    · exact ih h2 _

theorem mem_pixels {r : Raster} {i j : Nat} (hi : i < r.rows) (hj : j < r.cols) :
    r.data i j ∈ r.pixels :=
  List.mem_flatMap.mpr
    ⟨i, List.mem_range.mpr hi, List.mem_map.mpr ⟨j, List.mem_range.mpr hj, rfl⟩⟩

theorem data_le_maxVal {r : Raster} {i j : Nat} (hi : i < r.rows) (hj : j < r.cols) :
    r.data i j ≤ r.maxVal :=
  le_foldl_max_of_mem (mem_pixels hi hj) 0

theorem minVal_le_data {r : Raster} {i j : Nat} (hi : i < r.rows) (hj : j < r.cols) :
    r.minVal ≤ r.data i j :=
  foldl_min_le_of_mem (mem_pixels hi hj) r.maxVal

theorem pixels_invert (r : Raster) :
    r.invert.pixels = r.pixels.map fun v => r.maxVal - v := by
  unfold Raster.pixels Raster.invert
  rw [List.map_flatMap]
  simp only [List.map_map]
  rfl

theorem foldl_max_map_sub (m : Nat) (l : List Nat) (acc : Nat) (h : acc ≤ m) :
    (l.map fun v => m - v).foldl max (m - acc) = m - l.foldl min acc := by
  induction l generalizing acc with
  | nil => rfl
  | cons a l ih =>
    simp only [List.map_cons, List.foldl_cons]
    have h1 : max (m - acc) (m - a) = m - min acc a := by omega
    rw [h1]
    exact ih _ (by omega)

/-- The excluded sentinel `ground = z.max()` equals `dem.max() - dem.min()`. -/
theorem ground_eq (r : Raster) : r.ground = r.maxVal - r.minVal := by
  unfold Raster.ground Raster.maxVal Raster.minVal
  rw [pixels_invert]
  have h := foldl_max_map_sub r.maxVal r.pixels r.maxVal (le_refl _)
  simpa [Nat.sub_self] using h

/-! Triangulation of `plane_from_np` (background.py lines 258-301). -/

/-- A triangular face: three indices into the row-major vertex array. -/
structure Face where
  a : Nat
  b : Nat
  c : Nat
deriving DecidableEq

/-- The skip condition of the triangulation loop:
`ground in [z[i, j], z[i, j + 1], z[i + 1, j], z[i + 1, j + 1]]`. -/
def cellExcluded (z : Raster) (g : Nat) (i j : Nat) : Bool :=
  g == z.data i j || g == z.data i (j + 1) || g == z.data (i + 1) j
    || g == z.data (i + 1) (j + 1)

/-- The faces emitted for one 2×2 cell: skipped entirely when the cell is excluded
and `include_zeros` is false, two triangles (diagonal split) otherwise. -/
def cellFaces (z : Raster) (g : Nat) (includeZeros : Bool) (i j : Nat) : List Face :=
  if cellExcluded z g i j && !includeZeros then []
  else
    [⟨i * z.cols + j, i * z.cols + j + z.cols, i * z.cols + j + z.cols + 1⟩,
     ⟨i * z.cols + j, i * z.cols + j + z.cols + 1, i * z.cols + j + 1⟩]

/-- The full face list of `plane_from_np` applied to the post-downscale raster:
the double loop over `range(rows - 1)` and `range(cols - 1)`. -/
def plane_from_np_faces (dem : Raster) (includeZeros : Bool) : List Face :=
  (List.range (dem.rows - 1)).flatMap fun i =>
    (List.range (dem.cols - 1)).flatMap fun j =>
      cellFaces dem.invert dem.ground includeZeros i j

/-- The vertex array of `plane_from_np`: `column_stack([x.ravel(), y.ravel(), z.ravel()])`,
one `(x, y, z)` triple per grid point in row-major order. -/
def plane_from_np_vertices (dem : Raster) : List (Nat × Nat × Nat) :=
  (List.range dem.rows).flatMap fun i =>
    (List.range dem.cols).map fun j => (j, i, dem.invert.data i j)

/-- The z-coordinate of vertex `k` of the row-major vertex array. -/
def vertexZ (dem : Raster) (k : Nat) : Nat :=
  dem.invert.data (k / dem.cols) (k % dem.cols)

theorem flatMap_length_const {α : Type} (l : List Nat) (f : Nat → List α) (m : Nat)
    (h : ∀ a ∈ l, (f a).length = m) : (l.flatMap f).length = l.length * m := by
  induction l with
  | nil => simp
  | cons a l ih =>
    simp only [List.flatMap_cons, List.length_append, List.length_cons,
      h a (List.mem_cons_self a l)]
    rw [ih fun b hb => h b (List.mem_cons_of_mem a hb)]
    ring

theorem plane_from_np_faces_length_include (dem : Raster) :
    (plane_from_np_faces dem true).length = 2 * (dem.rows - 1) * (dem.cols - 1) := by
  unfold plane_from_np_faces
  rw [flatMap_length_const _ _ (2 * (dem.cols - 1)) fun i _ => by
    rw [flatMap_length_const _ _ 2 fun j _ => by simp [cellFaces]]
    simp [List.length_range]
    ring]
  simp [List.length_range]
  ring

theorem plane_from_np_vertices_length (dem : Raster) :
    (plane_from_np_vertices dem).length = dem.rows * dem.cols := by
  unfold plane_from_np_vertices
  rw [flatMap_length_const _ _ dem.cols fun i _ => by simp]
  simp [List.length_range]

theorem idx_div {i j cols : Nat} (hj : j < cols) : (i * cols + j) / cols = i := by
  rw [Nat.mul_comm, Nat.mul_add_div (by omega)]
  simp [Nat.div_eq_of_lt hj]

theorem idx_mod {i j cols : Nat} (hj : j < cols) : (i * cols + j) % cols = j := by
  rw [Nat.mul_comm, Nat.mul_add_mod]
  exact Nat.mod_eq_of_lt hj

theorem vertexZ_idx (dem : Raster) {i j : Nat} (hj : j < dem.cols) :
    vertexZ dem (i * dem.cols + j) = dem.invert.data i j := by
  unfold vertexZ
  rw [idx_div hj, idx_mod hj]

/-- Faces emitted with `include_zeros = false` never touch a sentinel-height corner. -/
theorem plane_from_np_faces_no_ground (dem : Raster) :
    ∀ f ∈ plane_from_np_faces dem false,
      vertexZ dem f.a ≠ dem.ground ∧ vertexZ dem f.b ≠ dem.ground ∧
        vertexZ dem f.c ≠ dem.ground := by
  intro f hf
  unfold plane_from_np_faces at hf
  obtain ⟨i, hi, hf⟩ := List.mem_flatMap.mp hf
  obtain ⟨j, hj, hf⟩ := List.mem_flatMap.mp hf
  rw [List.mem_range] at hi hj
  have hj1 : j + 1 < dem.cols := by omega
  have hj0 : j < dem.cols := by omega
  have hcols : dem.invert.cols = dem.cols := rfl
  unfold cellFaces at hf
  rw [hcols] at hf
  rcases hex : cellExcluded dem.invert dem.ground i j with _ | _
  · rw [hex] at hf
    simp only [Bool.false_and, Bool.not_false] at hf
    rw [if_neg (by simp)] at hf
    unfold cellExcluded at hex
    simp only [Bool.or_eq_false_iff, beq_eq_false_iff_ne, ne_eq] at hex
    obtain ⟨⟨⟨h00, h01⟩, h10⟩, h11⟩ := hex
    have e00 : vertexZ dem (i * dem.cols + j) = dem.invert.data i j := vertexZ_idx dem hj0
    have e01 : vertexZ dem (i * dem.cols + (j + 1)) = dem.invert.data i (j + 1) :=
      vertexZ_idx dem hj1
    have e10 : vertexZ dem ((i + 1) * dem.cols + j) = dem.invert.data (i + 1) j :=
      vertexZ_idx dem hj0
    have e11 : vertexZ dem ((i + 1) * dem.cols + (j + 1)) = dem.invert.data (i + 1) (j + 1) :=
      vertexZ_idx dem hj1
    have r10 : i * dem.cols + j + dem.cols = (i + 1) * dem.cols + j := by ring
    have r11 : i * dem.cols + j + dem.cols + 1 = (i + 1) * dem.cols + (j + 1) := by ring
    have r01 : i * dem.cols + j + 1 = i * dem.cols + (j + 1) := by ring
    rcases List.mem_cons.mp hf with rfl | hf2
    · refine ⟨?_, ?_, ?_⟩
      · show vertexZ dem (i * dem.cols + j) ≠ dem.ground
        rw [e00]; exact fun h => h00 h.symm
      · show vertexZ dem (i * dem.cols + j + dem.cols) ≠ dem.ground
        rw [r10, e10]; exact fun h => h10 h.symm
      · show vertexZ dem (i * dem.cols + j + dem.cols + 1) ≠ dem.ground
        rw [r11, e11]; exact fun h => h11 h.symm
    · rcases List.mem_cons.mp hf2 with rfl | hf3
      · refine ⟨?_, ?_, ?_⟩
        · show vertexZ dem (i * dem.cols + j) ≠ dem.ground
          rw [e00]; exact fun h => h00 h.symm
        · show vertexZ dem (i * dem.cols + j + dem.cols + 1) ≠ dem.ground
          rw [r11, e11]; exact fun h => h11 h.symm
        · show vertexZ dem (i * dem.cols + j + 1) ≠ dem.ground
          rw [r01, e01]; exact fun h => h01 h.symm
      · cases hf3
  · rw [hex] at hf
    simp at hf

/-! Sentinel analysis for the zero-exclusion rule (C3). -/

theorem invert_data_eq_ground_iff (dem : Raster) {i j : Nat}
    (hi : i < dem.rows) (hj : j < dem.cols) :
    dem.invert.data i j = dem.ground ↔ dem.data i j = dem.minVal := by
  have h1 : dem.data i j ≤ dem.maxVal := data_le_maxVal hi hj
  have h2 : dem.minVal ≤ dem.data i j := minVal_le_data hi hj
  rw [ground_eq]
  show dem.maxVal - dem.data i j = dem.maxVal - dem.minVal ↔ _
  omega

theorem cellExcluded_iff_min (dem : Raster) {i j : Nat}
    (hi : i + 1 < dem.rows) (hj : j + 1 < dem.cols) :
    cellExcluded dem.invert dem.ground i j = true ↔
      (dem.data i j = dem.minVal ∨ dem.data i (j + 1) = dem.minVal ∨
        dem.data (i + 1) j = dem.minVal ∨ dem.data (i + 1) (j + 1) = dem.minVal) := by
  unfold cellExcluded
  simp only [Bool.or_eq_true, beq_iff_eq]
  have e00 := invert_data_eq_ground_iff dem (i := i) (j := j) (by omega) (by omega)
  have e01 := invert_data_eq_ground_iff dem (i := i) (j := j + 1) (by omega) (by omega)
  have e10 := invert_data_eq_ground_iff dem (i := i + 1) (j := j) (by omega) (by omega)
  have e11 := invert_data_eq_ground_iff dem (i := i + 1) (j := j + 1) (by omega) (by omega)
  constructor
  · rintro (((h | h) | h) | h)
    · exact Or.inl (e00.mp h.symm)
    · exact Or.inr (Or.inl (e01.mp h.symm))
    · exact Or.inr (Or.inr (Or.inl (e10.mp h.symm)))
    · exact Or.inr (Or.inr (Or.inr (e11.mp h.symm)))
  · rintro (h | h | h | h)
    · exact Or.inl (Or.inl (Or.inl (e00.mpr h).symm))
    · exact Or.inl (Or.inl (Or.inr (e01.mpr h).symm))
    · exact Or.inl (Or.inr (e10.mpr h).symm)
    · exact Or.inr (e11.mpr h).symm

theorem cellFaces_empty_iff (z : Raster) (g : Nat) (i j : Nat) :
    cellFaces z g false i j = [] ↔ cellExcluded z g i j = true := by
  unfold cellFaces
  rcases hex : cellExcluded z g i j with _ | _ <;> simp

/-- C1: with `include_zeros = true` the triangulation of an R×C grid emits exactly
`2*(R-1)*(C-1)` faces and `R*C` vertices; a 3×3 all-equal raster yields 8 faces and
9 vertices; with `include_zeros = false` no emitted face has a corner whose inverted
z-value equals the post-inversion maximum (`ground`). -/
theorem plane_from_np_mesh_counts :
    (∀ dem : Raster,
      (plane_from_np_faces dem true).length = 2 * (dem.rows - 1) * (dem.cols - 1) ∧
      (plane_from_np_vertices dem).length = dem.rows * dem.cols)
    ∧ (∀ c : Nat,
      (plane_from_np_faces ⟨3, 3, fun _ _ => c⟩ true).length = 8 ∧
      (plane_from_np_vertices ⟨3, 3, fun _ _ => c⟩).length = 9)
    ∧ (∀ dem : Raster, ∀ f ∈ plane_from_np_faces dem false,
      vertexZ dem f.a ≠ dem.ground ∧ vertexZ dem f.b ≠ dem.ground ∧
        vertexZ dem f.c ≠ dem.ground) := by
  refine ⟨fun dem => ⟨plane_from_np_faces_length_include dem,
    plane_from_np_vertices_length dem⟩, fun c => ⟨?_, ?_⟩, plane_from_np_faces_no_ground⟩
  · simpa using plane_from_np_faces_length_include ⟨3, 3, fun _ _ => c⟩
  · simpa using plane_from_np_vertices_length ⟨3, 3, fun _ _ => c⟩

/-- A 3×3 raster whose only minimal sample sits at the corner (0, 0). -/
def demW1 : Raster := ⟨3, 3, fun i j => if i == 0 && j == 0 then 1 else 2⟩

theorem plane_from_np_mesh_counts_witness :
    vertexZ demW1 1 ≠ demW1.ground ∧ vertexZ demW1 4 ≠ demW1.ground ∧
      vertexZ demW1 5 ≠ demW1.ground :=
  plane_from_np_mesh_counts.2.2 demW1 ⟨1, 4, 5⟩ (by decide)

/-- A 2×2 raster with no zero sample whose minimum sits at (0, 0); its inverted corner
value reaches the post-inversion maximum although the original elevation is nonzero. -/
def demC3 : Raster := ⟨2, 2, fun i j => if i == 0 && j == 0 then 1 else 2⟩

/-- C3 counterexample: a grid corner whose inverted z-value equals the post-inversion
maximum although the pixel's original elevation is not zero, and a skipped 2×2 cell
none of whose corners is originally zero. -/
theorem sentinel_not_zero_counterexample :
    demC3.invert.data 0 0 = demC3.ground ∧ demC3.data 0 0 ≠ 0 ∧
      cellFaces demC3.invert demC3.ground false 0 0 = [] ∧
      demC3.data 0 0 ≠ 0 ∧ demC3.data 0 1 ≠ 0 ∧ demC3.data 1 0 ≠ 0 ∧ demC3.data 1 1 ≠ 0 := by
  decide

/-- C3 (amended): a corner's inverted z-value equals the post-inversion maximum exactly
when the pixel's original elevation equals the raster's minimum (which is 0 precisely
when the raster contains a zero pixel); with `include_zeros = false` a 2×2 cell is
skipped exactly when at least one of its corners holds the raster's minimum. -/
theorem sentinel_is_raster_minimum (dem : Raster) :
    (∀ i j, i < dem.rows → j < dem.cols →
      (dem.invert.data i j = dem.ground ↔ dem.data i j = dem.minVal))
    ∧ ((∃ i j, i < dem.rows ∧ j < dem.cols ∧ dem.data i j = 0) → dem.minVal = 0)
    ∧ (∀ i j, i + 1 < dem.rows → j + 1 < dem.cols →
      (cellFaces dem.invert dem.ground false i j = [] ↔
        (dem.data i j = dem.minVal ∨ dem.data i (j + 1) = dem.minVal ∨
          dem.data (i + 1) j = dem.minVal ∨ dem.data (i + 1) (j + 1) = dem.minVal))) := by
  refine ⟨fun i j hi hj => invert_data_eq_ground_iff dem hi hj, ?_, fun i j hi hj => ?_⟩
  · rintro ⟨i, j, hi, hj, hz⟩
    have := minVal_le_data hi hj
    omega
  · rw [cellFaces_empty_iff, cellExcluded_iff_min dem hi hj]

theorem sentinel_is_raster_minimum_witness :
    demC3.invert.data 0 0 = demC3.ground ↔ demC3.data 0 0 = demC3.minVal :=
  (sentinel_is_raster_minimum demC3).1 0 0 (by decide) (by decide)

/-! Depth subtraction (`subtraction`, background.py lines 518-541): a boolean mask
`water_resources_image == 255` eroded by one pass of a full 3×3 kernel (the default
`cv2.erode` border handling leaves out-of-bounds neighbours non-eroding), then
`dem_image[mask] = dem_image[mask] - water_depth` in the raster's native uint16. -/

/-- One 3×3 erosion pass of the boolean mask `water.data == 255` evaluated at `(i, j)`:
true when every in-bounds neighbour of the 3×3 window carries 255 (out-of-bounds
neighbours count as true, matching the constant maximal border of `cv2.erode`). -/
def erode3x3 (w : Raster) (i j : Nat) : Bool :=
  (List.range 3).all fun di => (List.range 3).all fun dj =>
    decide (i + di < 1 ∨ j + dj < 1 ∨ w.rows ≤ i + di - 1 ∨ w.cols ≤ j + dj - 1)
    || (w.data (i + di - 1) (j + dj - 1) == 255)

/-- Reduction of a signed value into the uint16 sample domain, the semantics of numpy
subtraction on a uint16 array. -/
def wrap16 (v : Int) : Nat := (v % 65536).toNat

/-- The depth subtraction of `Background.subtraction`: on every pixel selected by the
eroded water mask the depth is subtracted in uint16 arithmetic; all other pixels are
left unchanged. -/
def subtraction (dem water : Raster) (depth : Nat) : Raster :=
  ⟨dem.rows, dem.cols, fun i j =>
    if erode3x3 water i j then wrap16 ((dem.data i j : Int) - (depth : Int))
    else dem.data i j⟩

/-- C2 counterexample: a masked pixel of elevation 10 with configured depth 50 comes out
as 65496 — the uint16 subtraction wraps below zero instead of clamping at 0. -/
theorem subtraction_wraps_counterexample :
    erode3x3 ⟨3, 3, fun _ _ => 255⟩ 1 1 = true ∧ (10 : Nat) < 50 ∧
      (subtraction ⟨3, 3, fun _ _ => 10⟩ ⟨3, 3, fun _ _ => 255⟩ 50).data 1 1 = 65496 ∧
      (subtraction ⟨3, 3, fun _ _ => 10⟩ ⟨3, 3, fun _ _ => 255⟩ 50).data 1 1 ≠ 0 := by
  decide

/-- C2 (amended): the depth subtraction is total (never raises) and resolves underflow by
wrapping modulo 2^16 in the raster's native unsigned dtype: a masked pixel becomes
`elev - depth` when `depth ≤ elev` and `elev + 65536 - depth` (not 0) otherwise, and the
result always stays inside the uint16 domain. -/
theorem subtraction_total_wraps (dem water : Raster) (depth i j : Nat)
    (helev : dem.data i j < 65536) (hdepth : depth < 65536) :
    (subtraction dem water depth).data i j =
      (if erode3x3 water i j then
        (if depth ≤ dem.data i j then dem.data i j - depth else dem.data i j + 65536 - depth)
       else dem.data i j)
    ∧ (subtraction dem water depth).data i j < 65536 := by
  unfold subtraction wrap16
  cases he : erode3x3 water i j
  · simp only [he]
    exact ⟨rfl, helev⟩
  · simp only [he]
    refine ⟨?_, ?_⟩
    · show (((dem.data i j : Int) - depth) % 65536).toNat =
        if depth ≤ dem.data i j then dem.data i j - depth else dem.data i j + 65536 - depth
      split <;> omega
    · show (((dem.data i j : Int) - depth) % 65536).toNat < 65536
      omega

theorem subtraction_total_wraps_witness :
    (subtraction ⟨3, 3, fun _ _ => 10⟩ ⟨3, 3, fun _ _ => 255⟩ 50).data 1 1 =
      (if erode3x3 ⟨3, 3, fun _ _ => 255⟩ 1 1 then
        (if 50 ≤ (10 : Nat) then 10 - 50 else 10 + 65536 - 50) else 10)
    ∧ (subtraction ⟨3, 3, fun _ _ => 10⟩ ⟨3, 3, fun _ _ => 255⟩ 50).data 1 1 < 65536 :=
  subtraction_total_wraps ⟨3, 3, fun _ _ => 10⟩ ⟨3, 3, fun _ _ => 255⟩ 50 1 1
    (by decide) (by decide)

/-! The 1025×1025 flat-raster water-square scenario (C6). -/

/-- A square raster with every sample equal to `v`. -/
def constRaster (n v : Nat) : Raster := ⟨n, n, fun _ _ => v⟩

/-- An `n × n` water mask carrying 255 exactly on the `s × s` square whose top-left
corner is `(r0, c0)`, and 0 elsewhere. -/
def squareMask (n s r0 c0 : Nat) : Raster :=
  ⟨n, n, fun i j => if r0 ≤ i ∧ i < r0 + s ∧ c0 ≤ j ∧ j < c0 + s then 255 else 0⟩

theorem beq_255_ite (P : Prop) [Decidable P] :
    ((if P then (255 : Nat) else 0) == 255) = decide P := by
  by_cases h : P <;> simp [h]

/-- Eroding the indicator of an interior `s × s` square shrinks it by exactly one
pixel on each side. -/
theorem erode3x3_squareMask (n s r0 c0 i j : Nat)
    (hr0 : 1 ≤ r0) (hc0 : 1 ≤ c0) (hrn : r0 + s < n) (hcn : c0 + s < n)
    (hi : i < n) (hj : j < n) :
    erode3x3 (squareMask n s r0 c0) i j = true ↔
      (r0 + 1 ≤ i ∧ i + 1 < r0 + s ∧ c0 + 1 ≤ j ∧ j + 1 < c0 + s) := by
  have h3 : List.range 3 = [0, 1, 2] := rfl
  unfold erode3x3 squareMask
  rw [h3]
  simp only [List.all_cons, List.all_nil, Bool.and_eq_true, Bool.or_eq_true,
    decide_eq_true_eq, beq_255_ite, Bool.and_true]
  omega

/-- C6: on a 1025×1025 flat uint16 raster of value 1000 with water depth 50 and a water
mask that is 255 exactly on an interior 100×100 square, the depth adjustment sets the
eroded interior of the square (the square minus its one-pixel boundary ring) to 950 and
leaves the ring and every pixel outside the square at 1000. -/
theorem water_square_scenario (r0 c0 i j : Nat)
    (hr0 : 1 ≤ r0) (hc0 : 1 ≤ c0) (hrn : r0 + 100 < 1025) (hcn : c0 + 100 < 1025)
    (hi : i < 1025) (hj : j < 1025) :
    (subtraction (constRaster 1025 1000) (squareMask 1025 100 r0 c0) 50).data i j =
      if r0 + 1 ≤ i ∧ i + 1 < r0 + 100 ∧ c0 + 1 ≤ j ∧ j + 1 < c0 + 100 then 950
      else 1000 := by
  have herode := erode3x3_squareMask 1025 100 r0 c0 i j hr0 hc0 hrn hcn hi hj
  by_cases h : r0 + 1 ≤ i ∧ i + 1 < r0 + 100 ∧ c0 + 1 ≤ j ∧ j + 1 < c0 + 100
  · rw [if_pos h]
    have he : erode3x3 (squareMask 1025 100 r0 c0) i j = true := herode.mpr h
    show (if erode3x3 (squareMask 1025 100 r0 c0) i j then
      wrap16 ((1000 : Int) - 50) else 1000) = 950
    rw [he]
    simp [wrap16]
  · rw [if_neg h]
    have he : erode3x3 (squareMask 1025 100 r0 c0) i j = false := by
      cases hb : erode3x3 (squareMask 1025 100 r0 c0) i j
      · rfl
      · exact absurd (herode.mp hb) h
    show (if erode3x3 (squareMask 1025 100 r0 c0) i j then
      wrap16 ((1000 : Int) - 50) else 1000) = 1000
    rw [he]
    rfl

theorem water_square_scenario_witness :
    (subtraction (constRaster 1025 1000) (squareMask 1025 100 462 462) 50).data 500 500 =
      if 462 + 1 ≤ 500 ∧ 500 + 1 < 462 + 100 ∧ 462 + 1 ≤ 500 ∧ 500 + 1 < 462 + 100 then 950
      else 1000 :=
  water_square_scenario 462 462 500 500 (by decide) (by decide) (by decide) (by decide)
    (by decide) (by decide)

/-! Water mask compositing (`create_background_textures`, background.py lines 507-515):
`cv2.add` on uint8 rasters, i.e. 8-bit saturating addition, folded over the layer list
starting from `np.zeros`. -/

/-- 8-bit saturating addition, the pixel arithmetic of `cv2.add` on uint8 images. -/
def cv2add8 (a b : Nat) : Nat := min (a + b) 255

/-- The compositing loop of `create_background_textures`: start from an `n × n` zero
raster and `cv2.add` every background layer onto it. -/
def merge_background_layers (n : Nat) (layers : List (Nat → Nat → Nat)) : Raster :=
  layers.foldl (fun acc layer => ⟨n, n, fun i j => cv2add8 (acc.data i j) (layer i j)⟩)
    ⟨n, n, fun _ _ => 0⟩

/-- The number of marked (non-zero) pixels of a raster. -/
def markedCount (r : Raster) : Nat :=
  ∑ i ∈ Finset.range r.rows, ∑ j ∈ Finset.range r.cols, if r.data i j ≠ 0 then 1 else 0

/-- C5: compositing two single-layer rasters with pixel-wise disjoint marks gives a
composite whose marked-pixel count is the sum of the two counts; on overlapping
255-marks the 8-bit addition saturates at 255 (and never exceeds 255 anywhere). -/
theorem create_background_textures_compositing :
    (∀ (n : Nat) (A B : Nat → Nat → Nat), (∀ i j, A i j = 0 ∨ B i j = 0) →
      markedCount (merge_background_layers n [A, B]) =
        markedCount ⟨n, n, A⟩ + markedCount ⟨n, n, B⟩)
    ∧ (∀ (n : Nat) (A B : Nat → Nat → Nat) (i j : Nat), A i j = 255 → B i j = 255 →
      (merge_background_layers n [A, B]).data i j = 255)
    ∧ (∀ a b : Nat, cv2add8 a b ≤ 255) := by
  refine ⟨fun n A B hdisj => ?_, fun n A B i j hA hB => ?_, fun a b => min_le_right _ _⟩
  · unfold markedCount merge_background_layers
    simp only [List.foldl_cons, List.foldl_nil]
    rw [← Finset.sum_add_distrib]
    apply Finset.sum_congr rfl
    intro i _
    rw [← Finset.sum_add_distrib]
    apply Finset.sum_congr rfl
    intro j _
    show (if cv2add8 (cv2add8 0 (A i j)) (B i j) ≠ 0 then 1 else 0) = _
    unfold cv2add8
    rcases hdisj i j with h | h <;> simp only [h] <;> split_ifs <;> omega
  · show cv2add8 (cv2add8 0 (A i j)) (B i j) = 255
    rw [hA, hB]
    rfl

/-- A layer marking only the pixel (0, 0) with 255. -/
def layerA : Nat → Nat → Nat := fun i j => if i = 0 ∧ j = 0 then 255 else 0

/-- A layer marking only the pixel (1, 1) with 255. -/
def layerB : Nat → Nat → Nat := fun i j => if i = 1 ∧ j = 1 then 255 else 0

theorem create_background_textures_compositing_witness :
    markedCount (merge_background_layers 2 [layerA, layerB]) =
      markedCount ⟨2, 2, layerA⟩ + markedCount ⟨2, 2, layerB⟩ :=
  create_background_textures_compositing.1 2 layerA layerB
    (fun i j => by unfold layerA layerB; split_ifs <;> omega)

/-! The elevated water mesh input raster (`generate_water_resources_obj`,
background.py lines 557-573). -/

/-- The dilated value of one pixel: the maximum of the 3×3 neighbourhood restricted to
in-bounds positions (the constant minimal border of `cv2.dilate` leaves out-of-bounds
neighbours without effect). -/
def dilatePixel (r : Raster) (i j : Nat) : Nat :=
  (List.range 3).foldl (fun acc di =>
    (List.range 3).foldl (fun acc2 dj =>
      if i + di < 1 ∨ j + dj < 1 ∨ r.rows ≤ i + di - 1 ∨ r.cols ≤ j + dj - 1 then acc2
      else max acc2 (r.data (i + di - 1) (j + dj - 1))) acc) 0

/-- One pass of `cv2.dilate` with a full 3×3 kernel. -/
def dilate3x3 (r : Raster) : Raster := ⟨r.rows, r.cols, fun i j => dilatePixel r i j⟩

/-- `cv2.dilate(..., iterations = n)`: `n` successive 3×3 dilation passes. -/
def dilateIter : Nat → Raster → Raster
  | 0, r => r
  | n + 1, r => dilateIter n (dilate3x3 r)

/-- The pre-depth-adjustment DEM with all non-water pixels zeroed:
`background_dem[plane_water == 0] = 0`. -/
def zeroed_background_dem (dem water : Raster) : Raster :=
  ⟨dem.rows, dem.cols, fun i j => if water.data i j = 0 then 0 else dem.data i j⟩

/-- The input raster of the elevated water mesh:
`np.where(background_dem > 0, background_dem, cv2.dilate(background_dem, 3x3, 10))`. -/
def elevated_water (dem water : Raster) : Raster :=
  ⟨dem.rows, dem.cols, fun i j =>
    if 0 < (zeroed_background_dem dem water).data i j
    then (zeroed_background_dem dem water).data i j
    else (dilateIter 10 (zeroed_background_dem dem water)).data i j⟩

theorem le_foldl_of_step {α : Type} (g : Nat → α → Nat) (hg : ∀ acc x, acc ≤ g acc x)
    (l : List α) : ∀ acc, acc ≤ l.foldl g acc := by
  induction l with
  | nil => intro acc; exact le_refl acc
  | cons b l ih => intro acc; exact le_trans (hg acc b) (ih _)

theorem le_foldl_of_elem {α : Type} (g : Nat → α → Nat) (hg : ∀ acc x, acc ≤ g acc x)
    (v : Nat) (x : α) (hx : ∀ acc, v ≤ g acc x) (l : List α) :
    ∀ acc, x ∈ l → v ≤ l.foldl g acc := by
  induction l with
  | nil => intro acc h; cases h
  | cons b l ih =>
    intro acc h
    rcases List.mem_cons.mp h with rfl | h2
    · exact le_trans (hx acc) (le_foldl_of_step g hg l _)
    · exact ih _ h2

theorem data_le_dilatePixel (r : Raster) {i j : Nat} (hi : i < r.rows) (hj : j < r.cols) :
    r.data i j ≤ dilatePixel r i j := by
  unfold dilatePixel
  refine le_foldl_of_elem _ ?_ _ 1 ?_ _ 0 (by decide)
  · intro acc di
    refine le_foldl_of_step _ ?_ _ _
    intro acc2 dj
    dsimp only
    split
    · exact le_refl _
    · exact le_max_left _ _
  · intro acc
    refine le_foldl_of_elem _ ?_ _ 1 ?_ _ acc (by decide)
    · intro acc2 dj
      dsimp only
      split
      · exact le_refl _
      · exact le_max_left _ _
    · intro acc2
      dsimp only
      rw [if_neg (by omega)]
      exact le_max_right _ _

theorem data_le_dilateIter (n : Nat) (r : Raster) {i j : Nat}
    (hi : i < r.rows) (hj : j < r.cols) :
    r.data i j ≤ (dilateIter n r).data i j := by
  induction n generalizing r with
  | zero => exact le_refl _
  | succ n ih =>
    exact le_trans (data_le_dilatePixel r hi hj) (ih (dilate3x3 r) hi hj)

/-- C7: for every pixel, the elevated-water raster zeroes non-water pixels of the
pre-depth-adjustment DEM, keeps a zeroed sample that is positive unchanged (dilation
never overwrites it), and elsewhere takes the value of the 10-iteration 3×3 dilation of
the zeroed raster; the result always lies between the zeroed sample and its dilation. -/
theorem elevated_water_spec (dem water : Raster) (i j : Nat)
    (hi : i < dem.rows) (hj : j < dem.cols) :
    (water.data i j = 0 → (zeroed_background_dem dem water).data i j = 0)
    ∧ (water.data i j ≠ 0 → (zeroed_background_dem dem water).data i j = dem.data i j)
    ∧ (0 < (zeroed_background_dem dem water).data i j →
        (elevated_water dem water).data i j = (zeroed_background_dem dem water).data i j)
    ∧ ((zeroed_background_dem dem water).data i j = 0 →
        (elevated_water dem water).data i j =
          (dilateIter 10 (zeroed_background_dem dem water)).data i j)
    ∧ (zeroed_background_dem dem water).data i j ≤ (elevated_water dem water).data i j
    ∧ (elevated_water dem water).data i j ≤
        (dilateIter 10 (zeroed_background_dem dem water)).data i j := by
  refine ⟨fun hw => by simp [zeroed_background_dem, hw],
    fun hw => by simp [zeroed_background_dem, hw], ?_, ?_, ?_, ?_⟩
  · intro hpos
    show (if 0 < (zeroed_background_dem dem water).data i j then _ else _) = _
    rw [if_pos hpos]
  · intro hz
    show (if 0 < (zeroed_background_dem dem water).data i j then _ else _) = _
    rw [if_neg (by omega)]
  · show _ ≤ (if 0 < (zeroed_background_dem dem water).data i j then _ else _)
    split
    · exact le_refl _
    · omega
  · show (if 0 < (zeroed_background_dem dem water).data i j then _ else _) ≤ _
    split
    · exact data_le_dilateIter 10 (zeroed_background_dem dem water) hi hj
    · exact le_refl _

/-- A 3×3 flat DEM of value 7 used to instantiate the elevated-water theorem. -/
def demW7 : Raster := ⟨3, 3, fun _ _ => 7⟩

/-- A 3×3 water mask marking only the center pixel. -/
def waterCenter : Raster := ⟨3, 3, fun i j => if i == 1 && j == 1 then 255 else 0⟩

theorem elevated_water_spec_witness :
    (waterCenter.data 1 1 = 0 → (zeroed_background_dem demW7 waterCenter).data 1 1 = 0)
    ∧ (waterCenter.data 1 1 ≠ 0 →
        (zeroed_background_dem demW7 waterCenter).data 1 1 = demW7.data 1 1)
    ∧ (0 < (zeroed_background_dem demW7 waterCenter).data 1 1 →
        (elevated_water demW7 waterCenter).data 1 1 =
          (zeroed_background_dem demW7 waterCenter).data 1 1)
    ∧ ((zeroed_background_dem demW7 waterCenter).data 1 1 = 0 →
        (elevated_water demW7 waterCenter).data 1 1 =
          (dilateIter 10 (zeroed_background_dem demW7 waterCenter)).data 1 1)
    ∧ (zeroed_background_dem demW7 waterCenter).data 1 1 ≤
        (elevated_water demW7 waterCenter).data 1 1
    ∧ (elevated_water demW7 waterCenter).data 1 1 ≤
        (dilateIter 10 (zeroed_background_dem demW7 waterCenter)).data 1 1 :=
  elevated_water_spec demW7 waterCenter 1 1 (by decide) (by decide)

/-! The processing sequence of `Background.process` (background.py lines 89-111),
modelled as the list of effectful steps it executes in order. -/

/-- The effectful steps of `Background.process`. -/
inductive PEvent where
  | createBackgroundTextures
  | demProcess
  | copyNotSubstracted
  | saveNotResized
  | depthSubtraction
  | saveMapCutout
  | makeAdditionalCopy
  | generateObjFiles
  | generateWaterResources
deriving DecidableEq

/-- The configuration bits `process` branches on. -/
structure ProcCfg where
  customBackground : Bool
  waterDepth : Nat
  hasAdditionalDem : Bool
  generateBackground : Bool
  generateWater : Bool

/-- The statement sequence of `Background.process`: textures, DEM acquisition (unless a
custom background raster was supplied), the two diagnostic saves, the conditional depth
subtraction, the map-size cutout save, and the optional trailing steps. -/
def processEvents (c : ProcCfg) : List PEvent :=
  [PEvent.createBackgroundTextures]
  ++ (if c.customBackground then [] else [PEvent.demProcess])
  ++ [PEvent.copyNotSubstracted, PEvent.saveNotResized]
  ++ (if c.waterDepth != 0 then [PEvent.depthSubtraction] else [])
  ++ [PEvent.saveMapCutout]
  ++ (if c.hasAdditionalDem then [PEvent.makeAdditionalCopy] else [])
  ++ (if c.generateBackground then [PEvent.generateObjFiles] else [])
  ++ (if c.generateWater then [PEvent.generateWaterResources] else [])

/-- A run with water depth 50 and no optional trailing steps. -/
def cfgC4 : ProcCfg := ⟨false, 50, false, false, false⟩

/-- C4 counterexample: in a run with a non-zero water depth both the depth adjustment and
the map-size cutout save occur, but the cutout save does NOT precede the depth
adjustment — `process` subtracts the water depth first and saves the cutout afterwards. -/
theorem process_cutout_after_subtraction_counterexample :
    PEvent.depthSubtraction ∈ processEvents cfgC4 ∧
      PEvent.saveMapCutout ∈ processEvents cfgC4 ∧
      ¬((processEvents cfgC4).indexOf PEvent.saveMapCutout <
        (processEvents cfgC4).indexOf PEvent.depthSubtraction) := by
  decide

/-- C4 (amended): the diagnostic copies (`not_substracted`, `not_resized`) are persisted
before any depth adjustment; the depth adjustment runs exactly when a non-zero water depth
is configured; and the depth adjustment precedes the map-size cutout save (the state
order is DepthAdjusted before MapCutoutSaved, not the other way around). -/
theorem process_event_order (c : ProcCfg) :
    (PEvent.depthSubtraction ∈ processEvents c ↔ c.waterDepth ≠ 0)
    ∧ (c.waterDepth ≠ 0 →
      (processEvents c).indexOf PEvent.copyNotSubstracted <
        (processEvents c).indexOf PEvent.depthSubtraction
      ∧ (processEvents c).indexOf PEvent.saveNotResized <
        (processEvents c).indexOf PEvent.depthSubtraction
      ∧ (processEvents c).indexOf PEvent.depthSubtraction <
        (processEvents c).indexOf PEvent.saveMapCutout) := by
  obtain ⟨cb, wd, ad, gb, gw⟩ := c
  by_cases h : wd = 0
  · subst h
    cases cb <;> cases ad <;> cases gb <;> cases gw <;> decide
  · have hb : (wd != 0) = true := by simpa using h
    cases cb <;> cases ad <;> cases gb <;> cases gw <;>
      refine ⟨iff_of_true ?_ h, fun _ => ?_⟩ <;>
      · unfold processEvents
        dsimp only
        rw [hb]
        decide

theorem process_event_order_witness :
    (processEvents cfgC4).indexOf PEvent.copyNotSubstracted <
      (processEvents cfgC4).indexOf PEvent.depthSubtraction
    ∧ (processEvents cfgC4).indexOf PEvent.saveNotResized <
      (processEvents cfgC4).indexOf PEvent.depthSubtraction
    ∧ (processEvents cfgC4).indexOf PEvent.depthSubtraction <
      (processEvents cfgC4).indexOf PEvent.saveMapCutout :=
  (process_event_order cfgC4).2 (by decide)

/-! Optional-input handling (C9): `generate_obj_files` (background.py lines 167-190),
`create_background_textures` (463-516) and the guards of `subtraction` (518-522) and
`generate_water_resources_obj` (543-547). -/

/-- The outcome of `generate_obj_files`. -/
inductive ObjGenOutcome where
  | skippedMissingDem
  | generated
deriving DecidableEq

/-- `generate_obj_files`: when the DEM file is absent it logs one warning and returns
without producing a mesh; otherwise it proceeds to mesh generation. -/
def generate_obj_files (demFileExists : Bool) : ObjGenOutcome × List String :=
  if demFileExists then (ObjGenOutcome.generated, [])
  else (ObjGenOutcome.skippedMissingDem, ["DEM file not found"])

/-- One entry of the texture schema, reduced to the flag the compositor consumes. -/
structure TexLayer where
  background : Bool
deriving DecidableEq

/-- The guard structure of `create_background_textures`: no schema file or no
background-tagged layer means no water-resources raster is written (result `none`). -/
def create_background_textures (schemaExists : Bool) (layers : List TexLayer) :
    Option String :=
  if !schemaExists then none
  else if (layers.filter fun l => l.background).isEmpty then none
  else some "water_resources.png"

/-- The guard of `subtraction`: without a water-resources raster the DEM is untouched. -/
def subtraction_step (waterResourcesPath : Option String) (dem water : Raster)
    (depth : Nat) : Raster :=
  match waterResourcesPath with
  | none => dem
  | some _ => subtraction dem water depth

/-- The guard of `generate_water_resources_obj`: without a water-resources raster no
water mesh is produced. -/
def generate_water_resources_step (waterResourcesPath : Option String) :
    Option (String × String) :=
  match waterResourcesPath with
  | none => none
  | some _ => some ("plane_water.obj", "elevated_water.obj")

/-- C9: a missing DEM file makes `generate_obj_files` warn and return without a mesh; a
missing texture schema, or a schema without background-tagged layers, produces no water
mask; and without a water mask both the depth subtraction and the water mesh generation
are no-ops — none of these aborts the pipeline. -/
theorem missing_optional_inputs_skip :
    generate_obj_files false = (ObjGenOutcome.skippedMissingDem, ["DEM file not found"])
    ∧ (∀ layers : List TexLayer, create_background_textures false layers = none)
    ∧ (∀ layers : List TexLayer, (∀ l ∈ layers, l.background = false) →
        create_background_textures true layers = none)
    ∧ (∀ (dem water : Raster) (depth : Nat), subtraction_step none dem water depth = dem)
    ∧ generate_water_resources_step none = none := by
  refine ⟨rfl, fun layers => rfl, fun layers h => ?_, fun dem water depth => rfl, rfl⟩
  unfold create_background_textures
  have hf : (layers.filter fun l => l.background) = [] := by
    rw [List.filter_eq_nil_iff]
    intro l hl
    simp [h l hl]
  rw [hf]
  rfl

theorem missing_optional_inputs_skip_witness :
    create_background_textures true [⟨false⟩, ⟨false⟩] = none :=
  missing_optional_inputs_skip.2.2.1 [⟨false⟩, ⟨false⟩] (by decide)

/-! The map-size cutout and canonical DEM save (`save_map_dem`, background.py
lines 192-227). -/

/-- Modelled from the spec: `cut_out_np` of the ImageComponent mix-in is not among the
sources under verification; §4.1 specifies that in `return_cutout` mode it computes the
raster's exact center pixel and extracts the square region of side `2 * half_size`
centered there by pure index-based slicing (no interpolation). -/
def cut_out_np (r : Raster) (half : Nat) : Raster :=
  ⟨2 * half, 2 * half, fun i j =>
    r.data (r.rows / 2 - half + i) (r.cols / 2 - half + j)⟩

/-- An interpolation mode passed to `cv2.resize`. -/
inductive Interp where
  | linear
  | nearest
deriving DecidableEq

/-- A file-system effect of `save_map_dem`, in execution order. -/
inductive FileOp where
  | removeFile (path : String)
  | writeFile (path : String)
deriving DecidableEq

/-- The observable result of one `save_map_dem` call: the cutout raster, the resize
target and interpolation (when resizing happens), and the file operations in order. -/
structure DemSaveRun where
  cutout : Raster
  resizedTo : Option (Nat × Interp)
  ops : List FileOp

/-- `save_map_dem`: cut out the centered square of half-size `map_size // 2`; with an
explicit `save_path` write the raw cutout there; otherwise resize the cutout with
`cv2.INTER_LINEAR` to `(map_size + 1) × (map_size + 1)` and write it to the canonical
game DEM path after removing any prior file at that path. -/
def save_map_dem (mapSize : Nat) (dem : Raster) (savePath : Option String)
    (mainDemPath : String) : DemSaveRun :=
  match savePath with
  | some p => ⟨cut_out_np dem (mapSize / 2), none, [FileOp.writeFile p]⟩
  | none =>
      ⟨cut_out_np dem (mapSize / 2), some (mapSize + 1, Interp.linear),
        [FileOp.removeFile mainDemPath, FileOp.writeFile mainDemPath]⟩

/-- C8: with no explicit save path, `save_map_dem` extracts the centered cutout of
half-size `map_size // 2` (pixel `(i, j)` of the cutout comes from pixel
`(rows/2 - half + i, cols/2 - half + j)` of the source raster), resizes it with linear
interpolation to exactly `(map_size + 1) × (map_size + 1)`, and writes the canonical
game path after first removing any prior file at that path. -/
theorem save_map_dem_spec (mapSize : Nat) (dem : Raster) (mainDemPath : String) :
    (save_map_dem mapSize dem none mainDemPath).resizedTo =
      some (mapSize + 1, Interp.linear)
    ∧ (save_map_dem mapSize dem none mainDemPath).ops =
      [FileOp.removeFile mainDemPath, FileOp.writeFile mainDemPath]
    ∧ (save_map_dem mapSize dem none mainDemPath).cutout.rows = 2 * (mapSize / 2)
    ∧ (save_map_dem mapSize dem none mainDemPath).cutout.cols = 2 * (mapSize / 2)
    ∧ (∀ i j, (save_map_dem mapSize dem none mainDemPath).cutout.data i j =
      dem.data (dem.rows / 2 - mapSize / 2 + i) (dem.cols / 2 - mapSize / 2 + j)) :=
  ⟨rfl, rfl, rfl, rfl, fun i j => rfl⟩

/-! The post-triangulation transform/export sequence of `plane_from_np`
(background.py lines 303-339) and `mesh_to_stl` (lines 341-355). -/

/-- A mesh transformation or export step. -/
inductive MeshOp where
  | rotateY180
  | rotateZ180
  | scale (x y z : ℚ)
  | decimatePercent (percent : ℚ) (aggression : Nat)
  | decimateFaceCountDiv (divisor : Nat)
  | exportObj (path : String)
  | exportStl (path : String)
deriving DecidableEq

/-- The op sequence applied by `plane_from_np` after triangulation: the two 180°
rotations, the scale `[1/resize_factor, 1/resize_factor, z_scaling_factor]` (with
`resize_factor = 1/σ`, i.e. the X/Y factor is the configured `resize_factor` σ), the
optional quadric decimation, the obj export, and — only when `create_preview` is set —
the 0.5× preview scale, the `face_count // 2^6` decimation and the STL export of
`mesh_to_stl`. -/
def plane_from_np_mesh_ops (sigma zScale : ℚ) (applyDecimation : Bool)
    (decimationPercent : ℚ) (decimationAggression : Nat) (createPreview : Bool)
    (savePath stlPath : String) : List MeshOp :=
  [MeshOp.rotateY180, MeshOp.rotateZ180, MeshOp.scale sigma sigma zScale]
  ++ (if applyDecimation
      then [MeshOp.decimatePercent decimationPercent decimationAggression] else [])
  ++ [MeshOp.exportObj savePath]
  ++ (if createPreview
      then [MeshOp.scale (1 / 2) (1 / 2) (1 / 2), MeshOp.decimateFaceCountDiv 64,
        MeshOp.exportStl stlPath] else [])

/-- C10: the obj is exported after exactly the same op prefix whether or not a preview is
requested — in particular the `[σ, σ, z_scaling_factor]` scale is applied in both cases
before the export — and the preview-only 0.5× scale, 1/64 face-count decimation and STL
export are appended strictly after the obj export, so they never affect the obj
artifact. -/
theorem plane_from_np_export_order (sigma zScale : ℚ) (applyDecimation : Bool)
    (decimationPercent : ℚ) (decimationAggression : Nat) (savePath stlPath : String) :
    plane_from_np_mesh_ops sigma zScale applyDecimation decimationPercent
        decimationAggression true savePath stlPath =
      plane_from_np_mesh_ops sigma zScale applyDecimation decimationPercent
        decimationAggression false savePath stlPath
      ++ [MeshOp.scale (1 / 2) (1 / 2) (1 / 2), MeshOp.decimateFaceCountDiv 64,
          MeshOp.exportStl stlPath]
    ∧ (plane_from_np_mesh_ops sigma zScale applyDecimation decimationPercent
        decimationAggression false savePath stlPath).getLast? =
      some (MeshOp.exportObj savePath)
    ∧ MeshOp.scale sigma sigma zScale ∈ plane_from_np_mesh_ops sigma zScale
        applyDecimation decimationPercent decimationAggression false savePath stlPath := by
  refine ⟨?_, ?_, ?_⟩ <;> cases applyDecimation <;>
    simp [plane_from_np_mesh_ops]
